import Mathlib

/-!
Verification of the MCP tool-exposure adapter
(`packages/cli/src/commands/mcp/server.ts`).

The adapter registers one protocol endpoint per tool of the registry and
translates each invocation outcome into the protocol response shape.  We
embed the data model (tools, invocations, results, responses) and the
endpoint callback as pure Lean functions, translated from the source.
-/

namespace GeminiMcpServer

/-- Structured values that `llmContent` may carry (the source comment
restricts it to a string or an array of parts; we embed general JSON-like
structured values, which covers both). -/
inductive JsonValue where
  | null : JsonValue
  | bool (b : Bool) : JsonValue
  | num (n : Int) : JsonValue
  | str (s : String) : JsonValue
  | arr (items : List JsonValue) : JsonValue
  | obj (fields : List (String × JsonValue)) : JsonValue

/-- Lower-case hex digit for JSON string escapes. -/
def hexDigit (n : Nat) : Char :=
  if n < 10 then Char.ofNat (48 + n) else Char.ofNat (87 + n)

/-- Escaping of one character inside a JSON string literal, following the
JSON.stringify escaping rules. -/
def escapeChar (c : Char) : String :=
  if c = '"' then "\\\""
  else if c = '\\' then "\\\\"
  else if c = '\n' then "\\n"
  else if c = '\r' then "\\r"
  else if c = '\t' then "\\t"
  else if c = '\x08' then "\\b"
  else if c = '\x0c' then "\\f"
  else if c.toNat < 32 then
    "\\u00" ++ String.mk [hexDigit (c.toNat / 16), hexDigit (c.toNat % 16)]
  else String.singleton c

/-- A JSON string literal with quotes and escapes. -/
def quoteString (s : String) : String :=
  "\"" ++ String.join (s.toList.map escapeChar) ++ "\""

mutual

/-- Embedding of `JSON.stringify` on the structured values above: a
lossless, order-preserving key/value rendering. -/
def stringify : JsonValue → String
  | .null => "null"
  | .bool b => if b then "true" else "false"
  | .num n => toString n
  | .str s => quoteString s
  | .arr items => "[" ++ stringifyArr items ++ "]"
  | .obj fields => "\x7b" ++ stringifyObj fields ++ "\x7d"

/-- Comma-separated rendering of array elements, in order. -/
def stringifyArr : List JsonValue → String
  | [] => ""
  | [v] => stringify v
  | v :: rest => stringify v ++ "," ++ stringifyArr rest

/-- Comma-separated rendering of object fields, in order. -/
def stringifyObj : List (String × JsonValue) → String
  | [] => ""
  | [(k, v)] => quoteString k ++ ":" ++ stringify v
  | (k, v) :: rest => quoteString k ++ ":" ++ stringify v ++ "," ++ stringifyObj rest

end

/-- The error carried by a failure `Result` (`result.error`), with a
human-readable message. -/
structure ToolError where
  message : String
deriving DecidableEq, Repr

/-- The result of `Invocation.execute`: an optional error and the
`llmContent` payload. -/
structure ToolResult where
  error : Option ToolError
  llmContent : JsonValue

/-- A thrown JavaScript value, as discriminated by the catch clause:
either an `Error` instance carrying a message, or any other value of
which only the textual representation `String(v)` is used. -/
inductive ThrownValue where
  | errorInstance (message : String) : ThrownValue
  | nonError (text : String) : ThrownValue
deriving DecidableEq, Repr

/-- Embedding of `error instanceof Error ? error.message : String(error)`. -/
def thrownMessage : ThrownValue → String
  | .errorInstance m => m
  | .nonError t => t

/-- An abort signal; the only observable the adapter touches is whether it
has been triggered. -/
structure AbortSignal where
  aborted : Bool
deriving DecidableEq, Repr

/-- Embedding of `new AbortController().signal`: a freshly constructed
signal is not aborted, and the adapter holds no controller reference and
performs no abort, so the signal stays untriggered. -/
def newAbortControllerSignal : AbortSignal := ⟨false⟩

/-- An argument-bound invocation; `execute` may return a result or throw. -/
structure Invocation where
  execute : AbortSignal → Except ThrownValue ToolResult

/-- The open/unvalidated argument object passed to a tool. -/
abbrev Args := List (String × JsonValue)

/-- A tool of the registry: a unique name, an optional description and a
`build` operation that may produce an invocation or throw. -/
structure Tool where
  name : String
  description : Option String
  build : Args → Except ThrownValue Invocation

/-- One item of a protocol response's `content` array. -/
structure ContentItem where
  type : String
  text : String
deriving DecidableEq, Repr

/-- The protocol response shape; `isError = none` models the field being
absent from the returned object. -/
structure ProtocolResponse where
  content : List ContentItem
  isError : Option Bool
deriving DecidableEq, Repr

/-- Embedding of the success/error branching on a returned result
(source lines 83–99): the error branch when `result.error` is truthy,
else the text conversion of `llmContent`. -/
def handleResult (result : ToolResult) : ProtocolResponse :=
  match result.error with
  | some err => ⟨[⟨"text", "Error: " ++ err.message⟩], some true⟩
  | none =>
      let textContent := match result.llmContent with
        | .str s => s
        | v => stringify v
      ⟨[⟨"text", textContent⟩], none⟩

/-- Embedding of the registered endpoint callback, parametrised by the
signal handed to `execute` (source lines 76–108): build, execute, branch
on the outcome, and catch any thrown value. -/
def toolCallbackWith (signal : AbortSignal) (tool : Tool) (args : Option Args) :
    ProtocolResponse :=
  match tool.build (args.getD []) with
  | .error e => ⟨[⟨"text", "Internal Error: " ++ thrownMessage e⟩], some true⟩
  | .ok inv =>
      match inv.execute signal with
      | .error e => ⟨[⟨"text", "Internal Error: " ++ thrownMessage e⟩], some true⟩
      | .ok result => handleResult result

/-- The endpoint callback as registered: every invocation executes with a
freshly created, never-triggered signal. -/
def toolCallback (tool : Tool) (args : Option Args) : ProtocolResponse :=
  toolCallbackWith newAbortControllerSignal tool args

/-- The fixed product identifier used in generated descriptions. -/
def productName : String := "Claude Code Gemini CLI"

/-- The generated default description for a tool without one
(`Claude Code Gemini CLI ${tool.name} tool`). -/
def defaultToolDescription (name : String) : String :=
  productName ++ " " ++ name ++ " tool"

/-- Embedding of `tool.description || defaultToolDescription` — the JS
`||` treats both an absent and an empty description as falsy. -/
def endpointDescription (tool : Tool) : String :=
  match tool.description with
  | some d => if d = "" then defaultToolDescription tool.name else d
  | none => defaultToolDescription tool.name

/-- A registered protocol endpoint: name, description metadata, the empty
input schema placeholder, and the callback. -/
structure Endpoint where
  name : String
  description : String
  inputSchema : Args
  callback : Option Args → ProtocolResponse

/-- Registration of a single tool (source lines 70–109). -/
def registerEndpoint (tool : Tool) : Endpoint :=
  ⟨tool.name, endpointDescription tool, [], toolCallback tool⟩

/-- Endpoints registered at startup, one per tool, in the registry's
iteration order (source lines 66–110). -/
def startupEndpoints (tools : List Tool) : List Endpoint :=
  tools.map registerEndpoint

/-- The diagnostic line printed to the error stream when a tool is
registered (source line 68). -/
def registrationDiagnostic (tool : Tool) : String :=
  "Registering MCP tool: " ++ tool.name

/-- Per-tool registration diagnostics, in registration order. -/
def startupDiagnostics (tools : List Tool) : List String :=
  tools.map registrationDiagnostic

/-- The unconditional startup notice printed to the error stream after the
transport is connected (source line 115). -/
def serverStartedLine : String := "Claude Code Gemini CLI MCP server started on stdio"

/-- Every line the handler writes to the error stream during startup: one
diagnostic per registered tool, then the startup notice. -/
def handlerErrorStream (tools : List Tool) : List String :=
  startupDiagnostics tools ++ [serverStartedLine]

/-- A concrete tool whose build succeeds and whose execute returns the
given outcome; used to exercise the callback on concrete inputs. -/
def constTool (n : String) (d : Option String) (r : Except ThrownValue ToolResult) : Tool :=
  ⟨n, d, fun _ => .ok ⟨fun _ => r⟩⟩

/-- A concrete tool whose build throws the given value. -/
def buildThrowTool (n : String) (v : ThrownValue) : Tool :=
  ⟨n, none, fun _ => .error v⟩

/-- A concrete tool whose build succeeds and whose execute throws. -/
def execThrowTool (n : String) (v : ThrownValue) : Tool :=
  ⟨n, none, fun _ => .ok ⟨fun _ => .error v⟩⟩

/-- Names of the endpoints produced by registration are the tool names. -/
theorem startupEndpoints_map_name (tools : List Tool) :
    (startupEndpoints tools).map Endpoint.name = tools.map Tool.name := by
  simp [startupEndpoints, registerEndpoint]

/-- Filtering the registered endpoints by a name counts the tools of that
name. -/
theorem length_filter_startup_name (tools : List Tool) (n : String) :
    ((startupEndpoints tools).filter (fun e => e.name = n)).length
      = ((tools.map Tool.name).filter (fun m => m = n)).length := by
  induction tools with
  | nil => rfl
  | cons t ts ih =>
      by_cases h : t.name = n <;>
        simp [startupEndpoints, registerEndpoint, List.filter_cons, h] at * <;>
        omega

/-- In a duplicate-free list, a member is counted exactly once by the
equality filter. -/
theorem length_filter_eq_one_of_nodup {l : List String} {n : String}
    (hd : l.Nodup) (hm : n ∈ l) :
    (l.filter (fun m => m = n)).length = 1 := by
  induction l with
  | nil => cases hm
  | cons a as ih =>
      rw [List.nodup_cons] at hd
      rcases List.mem_cons.mp hm with h | h
      · subst h
        have hzero : as.filter (fun m => decide (m = n)) = [] := by
          rw [List.filter_eq_nil_iff]
          intro b hb hbn
          exact hd.1 (of_decide_eq_true hbn ▸ hb)
        simp [List.filter_cons, hzero]
      · have hne : ¬a = n := fun heq => hd.1 (heq ▸ h)
        simp only [List.filter_cons, hne, decide_False, if_false]
        exact ih hd.2 h

/-- C1: after startup every tool of the registry has exactly one endpoint
bearing its name, endpoints appear in the registry's iteration order
(`getAllTools()` order), and every endpoint name is some tool's name. -/
theorem endpoint_per_tool_exactly_once (tools : List Tool)
    (hnodup : (tools.map Tool.name).Nodup) :
    (startupEndpoints tools).map Endpoint.name = tools.map Tool.name ∧
    (∀ t ∈ tools,
      ((startupEndpoints tools).filter (fun e => e.name = t.name)).length = 1) ∧
    ∀ e ∈ startupEndpoints tools, ∃ t ∈ tools, e.name = t.name := by
  refine ⟨startupEndpoints_map_name tools, ?_, ?_⟩
  · intro t ht
    rw [length_filter_startup_name]
    exact length_filter_eq_one_of_nodup hnodup (List.mem_map_of_mem Tool.name ht)
  · intro e he
    rw [startupEndpoints, List.mem_map] at he
    obtain ⟨t, ht, rfl⟩ := he
    exact ⟨t, ht, rfl⟩

/-- Witness for C1 on a concrete two-tool registry with distinct names. -/
theorem endpoint_per_tool_exactly_once_witness :
    (([constTool "ls" none (.ok ⟨none, .str "ok"⟩),
       constTool "grep" none (.ok ⟨none, .str "ok"⟩)].map Tool.name).Nodup) ∧
    ((startupEndpoints [constTool "ls" none (.ok ⟨none, .str "ok"⟩),
        constTool "grep" none (.ok ⟨none, .str "ok"⟩)]).map Endpoint.name
      = [constTool "ls" none (.ok ⟨none, .str "ok"⟩),
         constTool "grep" none (.ok ⟨none, .str "ok"⟩)].map Tool.name ∧
     (∀ t ∈ [constTool "ls" none (.ok ⟨none, .str "ok"⟩),
             constTool "grep" none (.ok ⟨none, .str "ok"⟩)],
       ((startupEndpoints [constTool "ls" none (.ok ⟨none, .str "ok"⟩),
           constTool "grep" none (.ok ⟨none, .str "ok"⟩)]).filter
         (fun e => e.name = t.name)).length = 1) ∧
     ∀ e ∈ startupEndpoints [constTool "ls" none (.ok ⟨none, .str "ok"⟩),
              constTool "grep" none (.ok ⟨none, .str "ok"⟩)],
       ∃ t ∈ [constTool "ls" none (.ok ⟨none, .str "ok"⟩),
              constTool "grep" none (.ok ⟨none, .str "ok"⟩)], e.name = t.name) :=
  ⟨by decide, endpoint_per_tool_exactly_once _ (by decide)⟩

/-- C2: when `execute` returns a result carrying an error, the endpoint
responds with `isError = true` and a single text item reading
`"Error: " ++ error.message`. -/
theorem tool_error_maps_to_error_response (tool : Tool) (args : Option Args)
    (inv : Invocation) (result : ToolResult) (err : ToolError)
    (hb : tool.build (args.getD []) = .ok inv)
    (he : inv.execute newAbortControllerSignal = .ok result)
    (hr : result.error = some err) :
    toolCallback tool args =
      ⟨[⟨"text", "Error: " ++ err.message⟩], some true⟩ := by
  unfold toolCallback toolCallbackWith
  simp [hb, he, handleResult, hr]

/-- Witness for C2: a tool whose result is `error.message = "bad input"`
yields the `"Error: bad input"` response. -/
theorem tool_error_maps_to_error_response_witness :
    (constTool "t" none (.ok ⟨some ⟨"bad input"⟩, .str ""⟩)).build [] =
      .ok ⟨fun _ => .ok ⟨some ⟨"bad input"⟩, .str ""⟩⟩ ∧
    toolCallback (constTool "t" none (.ok ⟨some ⟨"bad input"⟩, .str ""⟩)) none =
      ⟨[⟨"text", "Error: bad input"⟩], some true⟩ :=
  ⟨rfl,
   tool_error_maps_to_error_response
     (constTool "t" none (.ok ⟨some ⟨"bad input"⟩, .str ""⟩)) none
     ⟨fun _ => .ok ⟨some ⟨"bad input"⟩, .str ""⟩⟩
     ⟨some ⟨"bad input"⟩, .str ""⟩ ⟨"bad input"⟩ rfl rfl rfl⟩

/-- C3: when `build` or `execute` throws, the callback catches the value
and responds with `isError = true` and text `"Internal Error: " ++ m`
where `m` is the thrown value's message if it carries one, else its
textual representation; the callback stays total (the embedding returns a
`ProtocolResponse`, never a thrown value). -/
theorem thrown_value_maps_to_internal_error (tool : Tool) (args : Option Args)
    (v : ThrownValue)
    (h : tool.build (args.getD []) = .error v ∨
      ∃ inv, tool.build (args.getD []) = .ok inv ∧
        inv.execute newAbortControllerSignal = .error v) :
    toolCallback tool args =
      ⟨[⟨"text", "Internal Error: " ++ thrownMessage v⟩], some true⟩ := by
  unfold toolCallback toolCallbackWith
  rcases h with hb | ⟨inv, hb, he⟩
  · simp [hb]
  · simp [hb, he]

/-- Witness for C3: both a throwing `build` and a throwing `execute` with
message `"boom"` yield the `"Internal Error: boom"` response. -/
theorem thrown_value_maps_to_internal_error_witness :
    ((buildThrowTool "t" (.errorInstance "boom")).build [] =
       .error (.errorInstance "boom") ∨
     ∃ inv, (buildThrowTool "t" (.errorInstance "boom")).build [] = .ok inv ∧
       inv.execute newAbortControllerSignal = .error (.errorInstance "boom")) ∧
    toolCallback (buildThrowTool "t" (.errorInstance "boom")) none =
      ⟨[⟨"text", "Internal Error: boom"⟩], some true⟩ ∧
    toolCallback (execThrowTool "u" (.errorInstance "boom")) none =
      ⟨[⟨"text", "Internal Error: boom"⟩], some true⟩ :=
  ⟨Or.inl rfl,
   thrown_value_maps_to_internal_error (buildThrowTool "t" (.errorInstance "boom"))
     none (.errorInstance "boom") (Or.inl rfl),
   thrown_value_maps_to_internal_error (execThrowTool "u" (.errorInstance "boom"))
     none (.errorInstance "boom")
     (Or.inr ⟨⟨fun _ => .error (.errorInstance "boom")⟩, rfl, rfl⟩)⟩

/-- C4: a success result with a string `llmContent` is returned verbatim
as the single text item, with no `isError` field. -/
theorem string_llmContent_verbatim (tool : Tool) (args : Option Args)
    (inv : Invocation) (s : String)
    (hb : tool.build (args.getD []) = .ok inv)
    (he : inv.execute newAbortControllerSignal = .ok ⟨none, .str s⟩) :
    toolCallback tool args = ⟨[⟨"text", s⟩], none⟩ := by
  unfold toolCallback toolCallbackWith
  simp [hb, he, handleResult]

/-- Witness for C4: `llmContent = "hello"` comes back as text `"hello"`
with `isError` absent. -/
theorem string_llmContent_verbatim_witness :
    (constTool "t" none (.ok ⟨none, .str "hello"⟩)).build [] =
      .ok ⟨fun _ => .ok ⟨none, .str "hello"⟩⟩ ∧
    toolCallback (constTool "t" none (.ok ⟨none, .str "hello"⟩)) none =
      ⟨[⟨"text", "hello"⟩], none⟩ :=
  ⟨rfl,
   string_llmContent_verbatim (constTool "t" none (.ok ⟨none, .str "hello"⟩))
     none ⟨fun _ => .ok ⟨none, .str "hello"⟩⟩ "hello" rfl rfl⟩

/-- C5: a success result whose `llmContent` is not a string is serialized
with the order-preserving key/value encoding, with no `isError` field; the
produced text is a string for every non-string value. -/
theorem nonstring_llmContent_serialized (tool : Tool) (args : Option Args)
    (inv : Invocation) (v : JsonValue)
    (hb : tool.build (args.getD []) = .ok inv)
    (he : inv.execute newAbortControllerSignal = .ok ⟨none, v⟩)
    (hv : ∀ s, v ≠ JsonValue.str s) :
    toolCallback tool args = ⟨[⟨"text", stringify v⟩], none⟩ := by
  unfold toolCallback toolCallbackWith
  cases v with
  | str s => exact absurd rfl (hv s)
  | null => simp [hb, he, handleResult]
  | bool b => simp [hb, he, handleResult]
  | num n => simp [hb, he, handleResult]
  | arr items => simp [hb, he, handleResult]
  | obj fields => simp [hb, he, handleResult]

/-- Witness for C5: `llmContent = obj [a ↦ 1]` is returned as the text
produced by the encoding, which on this input is the seven characters
of the rendered object literal with key `"a"` and value `1`. -/
theorem nonstring_llmContent_serialized_witness :
    (∀ s, JsonValue.obj [("a", .num 1)] ≠ JsonValue.str s) ∧
    toolCallback (constTool "t" none (.ok ⟨none, .obj [("a", .num 1)]⟩)) none =
      ⟨[⟨"text", stringify (.obj [("a", .num 1)])⟩], none⟩ ∧
    stringify (.obj [("a", .num 1)]) = "\x7b\"a\":1\x7d" :=
  ⟨fun s h => JsonValue.noConfusion h,
   nonstring_llmContent_serialized
     (constTool "t" none (.ok ⟨none, .obj [("a", .num 1)]⟩)) none
     ⟨fun _ => .ok ⟨none, .obj [("a", .num 1)]⟩⟩ (.obj [("a", .num 1)])
     rfl rfl (fun s h => JsonValue.noConfusion h),
   by decide⟩

/-- C6: the registered description is the tool's own when present and
non-empty, else the generated default, which is the product name followed
by the tool's name (so it references the product and contains the name). -/
theorem endpoint_description_contract (tool : Tool) :
    (∀ d, tool.description = some d → d ≠ "" →
      (registerEndpoint tool).description = d) ∧
    ((tool.description = none ∨ tool.description = some "") →
      (registerEndpoint tool).description = defaultToolDescription tool.name) ∧
    ∃ a b, defaultToolDescription tool.name = a ++ tool.name ++ b ∧
      a = productName ++ " " := by
  refine ⟨?_, ?_, productName ++ " ", " tool", rfl, rfl⟩
  · intro d hd hne
    simp [registerEndpoint, endpointDescription, hd, hne]
  · rintro (hd | hd) <;> simp [registerEndpoint, endpointDescription, hd]

/-- Witness for C6: a present non-empty description is kept; an absent or
empty one is replaced by the generated default naming the product and the
tool. -/
theorem endpoint_description_contract_witness :
    (registerEndpoint (constTool "run" (some "runs things")
        (.ok ⟨none, .str ""⟩))).description = "runs things" ∧
    (registerEndpoint (constTool "run" none
        (.ok ⟨none, .str ""⟩))).description = "Claude Code Gemini CLI run tool" ∧
    (registerEndpoint (constTool "run" (some "")
        (.ok ⟨none, .str ""⟩))).description = "Claude Code Gemini CLI run tool" :=
  ⟨(endpoint_description_contract
      (constTool "run" (some "runs things") (.ok ⟨none, .str ""⟩))).1
    "runs things" rfl (by decide),
   ((endpoint_description_contract
      (constTool "run" none (.ok ⟨none, .str ""⟩))).2.1 (Or.inl rfl)).trans rfl,
   ((endpoint_description_contract
      (constTool "run" (some "") (.ok ⟨none, .str ""⟩))).2.1 (Or.inr rfl)).trans rfl⟩

/-- C7: every invocation executes with the freshly constructed signal of a
new abort controller, which is not aborted, and the adapter never triggers
it — the callback is exactly the callback parametrised by the
never-aborted signal, for every tool and argument value. -/
theorem execute_signal_fresh_never_aborted :
    newAbortControllerSignal.aborted = false ∧
    ∀ (tool : Tool) (args : Option Args),
      toolCallback tool args = toolCallbackWith ⟨false⟩ tool args :=
  ⟨rfl, fun _ _ => rfl⟩

/-- C8 counterexample: even when the registry is empty, the handler still
writes one line — the unconditional startup notice — to the error stream,
so the error stream is not free of diagnostic lines. -/
theorem empty_registry_error_stream_nonempty :
    handlerErrorStream [] ≠ [] ∧
    handlerErrorStream [] = [serverStartedLine] :=
  ⟨by simp [handlerErrorStream, startupDiagnostics], rfl⟩

/-- C8 (amended): an empty registry yields zero registered endpoints and
zero per-tool registration diagnostics; the only line on the error stream
is the unconditional startup notice. -/
theorem empty_registry_zero_endpoints :
    startupEndpoints [] = [] ∧
    startupDiagnostics [] = [] ∧
    handlerErrorStream [] = [serverStartedLine] :=
  ⟨rfl, rfl, rfl⟩

/-- C9: on every branch — success, tool-reported error, and caught
exception — the response's content is an array of exactly one element and
that element's type is the string `"text"`. -/
theorem every_response_single_text_content (tool : Tool) (args : Option Args) :
    (toolCallback tool args).content.length = 1 ∧
    ∀ item ∈ (toolCallback tool args).content, item.type = "text" := by
  unfold toolCallback toolCallbackWith
  cases hb : tool.build (args.getD []) with
  | error e => constructor <;> simp [hb]
  | ok inv =>
      cases he : inv.execute newAbortControllerSignal with
      | error e => constructor <;> simp [hb, he]
      | ok result =>
          unfold handleResult
          cases hr : result.error with
          | some err => constructor <;> simp [hb, he, hr]
          | none => constructor <;> simp [hb, he, hr]

/-- C10: when a result carries an error, the error branch takes
precedence: the response is the `"Error: "`-prefixed error response, and
it is the same whatever value `llmContent` holds — the payload is never
consulted on that branch. -/
theorem error_branch_precedes_llmContent (tool : Tool) (args : Option Args)
    (inv : Invocation) (err : ToolError) (v : JsonValue)
    (hb : tool.build (args.getD []) = .ok inv)
    (he : inv.execute newAbortControllerSignal = .ok ⟨some err, v⟩) :
    toolCallback tool args =
      ⟨[⟨"text", "Error: " ++ err.message⟩], some true⟩ ∧
    ∀ w : JsonValue, handleResult ⟨some err, v⟩ = handleResult ⟨some err, w⟩ := by
  constructor
  · unfold toolCallback toolCallbackWith
    simp [hb, he, handleResult]
  · intro w
    rfl

/-- Witness for C10: a result carrying both an error and a non-trivial
payload produces the error response, and swapping the payload leaves the
response unchanged. -/
theorem error_branch_precedes_llmContent_witness :
    (constTool "t" none
        (.ok ⟨some ⟨"oops"⟩, .obj [("a", .num 1)]⟩)).build [] =
      .ok ⟨fun _ => .ok ⟨some ⟨"oops"⟩, .obj [("a", .num 1)]⟩⟩ ∧
    toolCallback (constTool "t" none
        (.ok ⟨some ⟨"oops"⟩, .obj [("a", .num 1)]⟩)) none =
      ⟨[⟨"text", "Error: oops"⟩], some true⟩ ∧
    ∀ w : JsonValue,
      handleResult ⟨some ⟨"oops"⟩, .obj [("a", .num 1)]⟩ =
        handleResult ⟨some ⟨"oops"⟩, w⟩ :=
  ⟨rfl,
   (error_branch_precedes_llmContent
      (constTool "t" none (.ok ⟨some ⟨"oops"⟩, .obj [("a", .num 1)]⟩)) none
      ⟨fun _ => .ok ⟨some ⟨"oops"⟩, .obj [("a", .num 1)]⟩⟩
      ⟨"oops"⟩ (.obj [("a", .num 1)]) rfl rfl).1,
   (error_branch_precedes_llmContent
      (constTool "t" none (.ok ⟨some ⟨"oops"⟩, .obj [("a", .num 1)]⟩)) none
      ⟨fun _ => .ok ⟨some ⟨"oops"⟩, .obj [("a", .num 1)]⟩⟩
      ⟨"oops"⟩ (.obj [("a", .num 1)]) rfl rfl).2⟩

end GeminiMcpServer
